import Mathlib

/-!
Verification of the identity and recovery-key core of the airc package
(`src/airc/identity.py`).  The canonical JSON encoder, the signing
operations of `Identity` and `RecoveryKey`, the keypair lifecycle against
an explicit file-system state, and the rotation and revocation proof
records are embedded as executable Lean definitions and the specified
properties are proved about them.
-/

namespace AIRC

/-! ## Character-level string order

Python compares strings lexicographically by Unicode code point; key
sorting in `json.dumps(..., sort_keys=True)` uses this order.  -/

/-- Lexicographic strict order on character lists, comparing Unicode code
points, as Python compares strings. -/
def strLtB : List Char → List Char → Bool
  | _, [] => false
  | [], _ :: _ => true
  | a :: as, b :: bs =>
      if a.toNat < b.toNat then true
      else if b.toNat < a.toNat then false
      else strLtB as bs

/-- Strict order on strings used by the key sort of the canonical encoder. -/
def keyLt (a b : String) : Bool := strLtB a.data b.data

theorem char_eq_of_toNat_eq {a b : Char} (h : a.toNat = b.toNat) : a = b :=
  Char.eq_of_val_eq (UInt32.ext h)

theorem strLtB_irrefl : ∀ l, strLtB l l = false
  | [] => rfl
  | a :: as => by simp [strLtB, strLtB_irrefl as]

theorem strLtB_connex : ∀ l₁ l₂, strLtB l₁ l₂ = false → strLtB l₂ l₁ = false → l₁ = l₂
  | [], [] => fun _ _ => rfl
  | [], _ :: _ => fun h _ => by simp [strLtB] at h
  | _ :: _, [] => fun _ h => by simp [strLtB] at h
  | a :: as, b :: bs => fun h₁ h₂ => by
      simp only [strLtB] at h₁ h₂
      rcases Nat.lt_trichotomy a.toNat b.toNat with h | h | h
      · simp [h] at h₁
      · have hab : a = b := char_eq_of_toNat_eq h
        subst hab
        simp only [Nat.lt_irrefl, if_false, if_neg] at h₁ h₂
        rw [strLtB_connex as bs h₁ h₂]
      · simp [h, Nat.lt_asymm h] at h₂

theorem strLtB_trans : ∀ l₁ l₂ l₃, strLtB l₁ l₂ = true → strLtB l₂ l₃ = true →
    strLtB l₁ l₃ = true
  | _, _, [] => fun _ h => by simp [strLtB] at h
  | _ :: _, [], _ => fun h _ => by simp [strLtB] at h
  | [], _, _ :: _ => fun _ _ => rfl
  | a :: as, b :: bs, c :: cs => fun h₁ h₂ => by
      simp only [strLtB] at h₁ h₂ ⊢
      rcases Nat.lt_trichotomy a.toNat b.toNat with hab | hab | hab
      · rcases Nat.lt_trichotomy b.toNat c.toNat with hbc | hbc | hbc
        · simp [Nat.lt_trans hab hbc]
        · simp [hbc ▸ hab]
        · simp [Nat.lt_asymm hbc, hbc] at h₂
      · rcases Nat.lt_trichotomy b.toNat c.toNat with hbc | hbc | hbc
        · simp [hab ▸ hbc]
        · have hac : ¬ a.toNat < c.toNat := by omega
          have hca : ¬ c.toNat < a.toNat := by omega
          have h₁' : strLtB as bs = true := by
            simpa [hab, Nat.lt_irrefl] using h₁
          have h₂' : strLtB bs cs = true := by
            simpa [hbc, Nat.lt_irrefl] using h₂
          simp [hac, hca, strLtB_trans as bs cs h₁' h₂']
        · simp [Nat.lt_asymm hbc, hbc] at h₂
      · simp [Nat.lt_asymm hab, hab] at h₁

theorem keyLt_irrefl (a : String) : keyLt a a = false := strLtB_irrefl a.data

theorem keyLt_trans {a b c : String} (h₁ : keyLt a b = true) (h₂ : keyLt b c = true) :
    keyLt a c = true := strLtB_trans a.data b.data c.data h₁ h₂

theorem keyLt_asymm {a b : String} (h : keyLt a b = true) : keyLt b a = false := by
  cases hba : keyLt b a
  · rfl
  · have := keyLt_trans h hba
    rw [keyLt_irrefl] at this
    exact absurd this (by simp)

theorem keyLt_eq_of_not_lt {a b : String} (h₁ : keyLt a b = false)
    (h₂ : keyLt b a = false) : a = b := by
  have hd : a.data = b.data := strLtB_connex a.data b.data h₁ h₂
  cases a
  cases b
  exact congrArg String.mk hd

theorem keyLt_connex {a b : String} (h : a ≠ b) :
    keyLt a b = true ∨ keyLt b a = true := by
  cases hab : keyLt a b
  · cases hba : keyLt b a
    · exact absurd (keyLt_eq_of_not_lt hab hba) h
    · exact Or.inr rfl
  · exact Or.inl rfl

/-! ## Payload values

The allowed payload domain of the spec for the canonical encoder: string
keys with string, integer, or nested-mapping values (the `payload: dict`
argument of `Identity.sign` and `RecoveryKey.sign`). -/

mutual
inductive JVal where
  | str (s : String)
  | int (n : Int)
  | obj (o : JObj)

inductive JObj where
  | nil
  | cons (k : String) (v : JVal) (rest : JObj)
end

/-! ## Canonical JSON text

`json.dumps(payload, sort_keys=True, separators=(",", ":"))` with the
default `ensure_ascii=True`, produced as a character list. -/

def lbrace : Char := Char.ofNat 123

def rbrace : Char := Char.ofNat 125

def bslash : Char := Char.ofNat 92

def dquote : Char := Char.ofNat 34

/-- Decimal digit characters. -/
def digitChar : Nat → Char
  | 0 => '0' | 1 => '1' | 2 => '2' | 3 => '3' | 4 => '4'
  | 5 => '5' | 6 => '6' | 7 => '7' | 8 => '8' | 9 => '9'
  | _ => '0'

/-- Lowercase hexadecimal digit characters, as Python formats escape
sequences. -/
def hexDigitChar : Nat → Char
  | 0 => '0' | 1 => '1' | 2 => '2' | 3 => '3' | 4 => '4'
  | 5 => '5' | 6 => '6' | 7 => '7' | 8 => '8' | 9 => '9'
  | 10 => 'a' | 11 => 'b' | 12 => 'c' | 13 => 'd' | 14 => 'e' | 15 => 'f'
  | _ => '0'

/-- Four lowercase hex digits, the XXXX of a JSON \uXXXX escape. -/
def hex4 (n : Nat) : List Char :=
  [hexDigitChar (n / 4096 % 16), hexDigitChar (n / 256 % 16),
   hexDigitChar (n / 16 % 16), hexDigitChar (n % 16)]

/-- JSON string escaping with `ensure_ascii=True`: backslash, quote and the
named control characters get two-character escapes, other characters
outside the printable ASCII range 0x20..0x7e get \uXXXX escapes, with a
surrogate pair for code points above 0xffff. -/
def escapeChar (c : Char) : List Char :=
  if c.toNat = 34 then [bslash, dquote]
  else if c.toNat = 92 then [bslash, bslash]
  else if c.toNat = 8 then [bslash, 'b']
  else if c.toNat = 12 then [bslash, 'f']
  else if c.toNat = 10 then [bslash, 'n']
  else if c.toNat = 13 then [bslash, 'r']
  else if c.toNat = 9 then [bslash, 't']
  else if 32 ≤ c.toNat ∧ c.toNat ≤ 126 then [c]
  else if c.toNat < 65536 then bslash :: 'u' :: hex4 c.toNat
  else
    bslash :: 'u' :: hex4 (55296 + (c.toNat - 65536) / 1024) ++
      bslash :: 'u' :: hex4 (56320 + (c.toNat - 65536) % 1024)

/-- A JSON string literal: quoted and escaped. -/
def quoteChars (s : String) : List Char :=
  dquote :: s.data.flatMap escapeChar ++ [dquote]

def natCharsAux : Nat → Nat → List Char
  | 0, _ => []
  | fuel + 1, n => if n < 10 then [digitChar n] else natCharsAux fuel (n / 10) ++ [digitChar (n % 10)]

/-- Shortest decimal representation of a natural number. -/
def natChars (n : Nat) : List Char := natCharsAux (n + 1) n

/-- Decimal representation of an integer, as Python prints int. -/
def intChars : Int → List Char
  | .ofNat n => natChars n
  | .negSucc m => '-' :: natChars (m + 1)

/-- An object entry after its value has been rendered: the key string and
the rendered value characters. -/
abbrev Entry := String × List Char

/-- Stable ascending insertion: the new entry goes after every entry with a
strictly smaller key, mirroring the ascending key sort of
`json.dumps(..., sort_keys=True)`. -/
def insEntry (x : Entry) : List Entry → List Entry
  | [] => [x]
  | y :: l => if keyLt y.1 x.1 then y :: insEntry x l else x :: y :: l

/-- Sort the entries of an object by key, ascending. -/
def sortEntries : List Entry → List Entry
  | [] => []
  | x :: l => insEntry x (sortEntries l)

/-- One rendered entry: quoted key, colon separator, rendered value. -/
def entryChars (p : Entry) : List Char := quoteChars p.1 ++ ':' :: p.2

/-- Comma-join with no inserted whitespace, per separators (",", ":"). -/
def joinComma : List (List Char) → List Char
  | [] => []
  | [x] => x
  | x :: y :: l => x ++ ',' :: joinComma (y :: l)

mutual
/-- The canonical JSON text of a payload value: keys sorted at every
nesting level, no whitespace, ASCII escapes. -/
def encodeVal : JVal → List Char
  | .str s => quoteChars s
  | .int n => intChars n
  | .obj o => lbrace :: joinComma ((sortEntries (encodeEntries o)).map entryChars) ++ [rbrace]

/-- Render the entries of an object, in insertion order, before sorting. -/
def encodeEntries : JObj → List Entry
  | .nil => []
  | .cons k v r => (k, encodeVal v) :: encodeEntries r
end

/-- UTF-8 encoding of one character, as byte values. -/
def utf8Char (c : Char) : List Nat :=
  if c.toNat < 128 then [c.toNat]
  else if c.toNat < 2048 then [192 + c.toNat / 64, 128 + c.toNat % 64]
  else if c.toNat < 65536 then
    [224 + c.toNat / 4096, 128 + c.toNat / 64 % 64, 128 + c.toNat % 64]
  else
    [240 + c.toNat / 262144, 128 + c.toNat / 4096 % 64,
     128 + c.toNat / 64 % 64, 128 + c.toNat % 64]

/-- The byte sequence that is signed: the canonical JSON text encoded as
UTF-8, per `canonical.encode("utf-8")` in `sign`. -/
def signMessage (p : JVal) : List Nat := (encodeVal p).flatMap utf8Char

/-! ## Canonical determinism

Two structurally equal mappings encode to byte-identical output. -/

theorem keyLt_le_lt_trans {a b c : String} (h₁ : keyLt b a = false)
    (h₂ : keyLt b c = true) : keyLt a c = true := by
  by_cases hab : a = b
  · exact hab ▸ h₂
  · rcases keyLt_connex hab with h | h
    · exact keyLt_trans h h₂
    · exact absurd h (by simp [h₁])

theorem insEntry_comm (x y : Entry) (h : x.1 ≠ y.1) :
    ∀ l, insEntry x (insEntry y l) = insEntry y (insEntry x l) := by
  intro l
  induction l with
  | nil =>
      simp only [insEntry]
      cases hxy : keyLt x.1 y.1
      · rcases keyLt_connex h with h' | h'
        · exact absurd h' (by simp [hxy])
        · simp [h']
      · simp [keyLt_asymm hxy]
  | cons z l ih =>
      by_cases hzy : keyLt z.1 y.1 = true
      · by_cases hzx : keyLt z.1 x.1 = true
        · simp [insEntry, hzy, hzx, ih]
        · have hxy : keyLt x.1 y.1 = true :=
            keyLt_le_lt_trans (by simpa using hzx) hzy
          simp [insEntry, hzy, hzx, hxy, keyLt_asymm hxy]
      · by_cases hzx : keyLt z.1 x.1 = true
        · have hyx : keyLt y.1 x.1 = true :=
            keyLt_le_lt_trans (by simpa using hzy) hzx
          simp [insEntry, hzy, hzx, hyx, keyLt_asymm hyx]
        · cases hxy : keyLt x.1 y.1
          · rcases keyLt_connex h with h' | h'
            · exact absurd h' (by simp [hxy])
            · simp [insEntry, hzy, hzx, hxy, h']
          · simp [insEntry, hzy, hzx, hxy, keyLt_asymm hxy]

/-- Structural equality of payload values: equal atoms, and mappings with
the same keys and structurally equal values at every nesting level in any
insertion order.  Reordering is generated, as for list permutations, by
congruence, a swap of two adjacent entries with distinct keys, and
transitivity. -/
inductive EquivJ : JVal → JVal → Prop where
  | str (s : String) : EquivJ (.str s) (.str s)
  | int (n : Int) : EquivJ (.int n) (.int n)
  | objNil : EquivJ (.obj .nil) (.obj .nil)
  | objCons (k : String) {v₁ v₂ : JVal} {r₁ r₂ : JObj} :
      EquivJ v₁ v₂ → EquivJ (.obj r₁) (.obj r₂) →
      EquivJ (.obj (.cons k v₁ r₁)) (.obj (.cons k v₂ r₂))
  | objSwap {k₁ k₂ : String} (v₁ v₂ : JVal) (r : JObj) (h : k₁ ≠ k₂) :
      EquivJ (.obj (.cons k₁ v₁ (.cons k₂ v₂ r))) (.obj (.cons k₂ v₂ (.cons k₁ v₁ r)))
  | objTrans {o₁ o₂ o₃ : JObj} :
      EquivJ (.obj o₁) (.obj o₂) → EquivJ (.obj o₂) (.obj o₃) →
      EquivJ (.obj o₁) (.obj o₃)

/-- Auxiliary invariant for the determinism proof: object pairs agree on
their sorted rendered entries, other pairs agree on their rendered text. -/
def strongEq : JVal → JVal → Prop
  | .obj o₁, .obj o₂ => sortEntries (encodeEntries o₁) = sortEntries (encodeEntries o₂)
  | a, b => encodeVal a = encodeVal b

theorem strongEq_encode : ∀ {a b : JVal}, strongEq a b → encodeVal a = encodeVal b
  | .str _, .str _, h => h
  | .str _, .int _, h => h
  | .str _, .obj _, h => h
  | .int _, .str _, h => h
  | .int _, .int _, h => h
  | .int _, .obj _, h => h
  | .obj _, .str _, h => h
  | .obj _, .int _, h => h
  | .obj o₁, .obj o₂, h => by
      have h' : sortEntries (encodeEntries o₁) = sortEntries (encodeEntries o₂) := h
      simp only [encodeVal, h']

theorem equivJ_strongEq {a b : JVal} (h : EquivJ a b) : strongEq a b := by
  induction h with
  | str s => exact rfl
  | int n => exact rfl
  | objNil => exact rfl
  | objCons k hv hr ihv ihr =>
      have hv' := strongEq_encode ihv
      have ihr' : sortEntries (encodeEntries _) = sortEntries (encodeEntries _) := ihr
      show sortEntries (encodeEntries _) = sortEntries (encodeEntries _)
      simp only [encodeEntries, sortEntries, hv', ihr']
  | objSwap v₁ v₂ r h =>
      show sortEntries (encodeEntries _) = sortEntries (encodeEntries _)
      simp only [encodeEntries, sortEntries]
      exact insEntry_comm _ _ h _
  | objTrans h₁ h₂ ih₁ ih₂ =>
      have ih₁' : sortEntries (encodeEntries _) = sortEntries (encodeEntries _) := ih₁
      have ih₂' : sortEntries (encodeEntries _) = sortEntries (encodeEntries _) := ih₂
      exact ih₁'.trans ih₂'

/-- Claim C1: for any two structurally equal payload mappings in the
allowed domain, regardless of insertion order, the canonical encoding step
inside sign produces byte-identical output. -/
theorem canonical_encoding_deterministic (o₁ o₂ : JObj)
    (h : EquivJ (.obj o₁) (.obj o₂)) :
    signMessage (.obj o₁) = signMessage (.obj o₂) := by
  unfold signMessage
  rw [strongEq_encode (equivJ_strongEq h)]

/-- Witness for C1 at the example of the spec: the mapping with entries
b:1, a:2 in either insertion order yields the same signed bytes. -/
theorem canonical_encoding_deterministic_witness :
    EquivJ (.obj (.cons "b" (.int 1) (.cons "a" (.int 2) .nil)))
      (.obj (.cons "a" (.int 2) (.cons "b" (.int 1) .nil))) ∧
    signMessage (.obj (.cons "b" (.int 1) (.cons "a" (.int 2) .nil))) =
      signMessage (.obj (.cons "a" (.int 2) (.cons "b" (.int 1) .nil))) :=
  have h : EquivJ (.obj (.cons "b" (.int 1) (.cons "a" (.int 2) .nil)))
      (.obj (.cons "a" (.int 2) (.cons "b" (.int 1) .nil))) :=
    EquivJ.objSwap (.int 1) (.int 2) .nil (by decide)
  ⟨h, canonical_encoding_deterministic _ _ h⟩

/-! ## Keys, file system and identity state

The Ed25519 primitives come from the external cryptography library, not
from this repository, and are abstracted: key handles are naturals, public
key derivation, raw signing, raw public-byte serialization and SHA-256 are
arbitrary functions, and the PKCS8/PEM private-key serialization is an
exact round trip (`load_pem_private_key` inverts `private_bytes`). -/

structure CryptoPrim where
  derivePub : Nat → Nat
  edSign : Nat → List Nat → List Nat
  rawPub : Nat → List Nat
  sha256 : List Nat → List Nat

/-- PEM/PKCS8 serialization of a private key, abstracted as an exactly
round-tripping encoding. -/
def pemEncode (sk : Nat) : List Nat := [sk]

/-- Parsing a private-key artifact; anything that is not a serialized
private key fails (`load_pem_private_key` raises). -/
def pemDecode : List Nat → Option Nat
  | [sk] => some sk
  | _ => none

/-- Errors surfaced by the identity core, named after the Python
exceptions the code raises. -/
inductive PyErr where
  | notInitialized
  | attributeError
  | notFound
  | corruptKey
  | typeError
deriving DecidableEq

/-- File system state: file path to contents and permission mode, plus the
set of existing directories. -/
structure FileSystem where
  files : String → Option (List Nat × Nat)
  dirs : List String

def FileSystem.lookup (fs : FileSystem) (p : String) : Option (List Nat × Nat) :=
  fs.files p

/-- write_bytes: sets the contents; a fresh file gets the default creation
mode 0o644, an existing file keeps its mode. -/
def FileSystem.write (fs : FileSystem) (p : String) (bs : List Nat) : FileSystem :=
  { fs with files := fun q =>
      if q = p then
        some (bs, match fs.files p with | some (_, m) => m | none => 0o644)
      else fs.files q }

/-- os.chmod; on a missing file Python raises, the model leaves the file
system unchanged there. -/
def FileSystem.chmod (fs : FileSystem) (p : String) (m : Nat) : FileSystem :=
  { fs with files := fun q =>
      if q = p then
        match fs.files p with | some (bs, _) => some (bs, m) | none => none
      else fs.files q }

/-- mkdir(parents=True, exist_ok=True). -/
def FileSystem.mkdir (fs : FileSystem) (d : String) : FileSystem :=
  { fs with dirs := d :: fs.dirs }

/-- In-memory state of `Identity`: name, key directory, and the optional
keypair fields set by `__init__` to None. -/
structure IdentityState where
  name : String
  keyDir : String
  privateKey : Option Nat
  publicKey : Option Nat

def Identity.init (name keyDir : String) : IdentityState :=
  { name := name, keyDir := keyDir, privateKey := none, publicKey := none }

def keyPath (st : IdentityState) : String := st.keyDir ++ "/" ++ st.name ++ ".key"

def publicKeyPath (st : IdentityState) : String := st.keyDir ++ "/" ++ st.name ++ ".pub"

/-- _generate_keypair: make the key directory, generate a fresh keypair
(the fresh private key is an explicit input standing for the randomness),
write the private key artifact and set its mode to 0o600, write the public
key artifact. -/
def generate_keypair (prim : CryptoPrim) (fresh : Nat) (st : IdentityState)
    (fs : FileSystem) : IdentityState × FileSystem :=
  let fs1 := fs.mkdir st.keyDir
  let fs2 := (fs1.write (keyPath st) (pemEncode fresh)).chmod (keyPath st) 0o600
  let fs3 := fs2.write (publicKeyPath st) (prim.rawPub (prim.derivePub fresh))
  ({ st with privateKey := some fresh, publicKey := some (prim.derivePub fresh) }, fs3)

/-- _load_keypair: read the private key artifact, parse it, re-derive the
public key. -/
def load_keypair (prim : CryptoPrim) (st : IdentityState) (fs : FileSystem) :
    Except PyErr IdentityState :=
  match fs.lookup (keyPath st) with
  | none => .error .notFound
  | some (bytes, _) =>
      match pemDecode bytes with
      | none => .error .corruptKey
      | some sk => .ok { st with privateKey := some sk, publicKey := some (prim.derivePub sk) }

/-- ensure_keypair: load if the private key artifact exists, else generate. -/
def ensure_keypair (prim : CryptoPrim) (fresh : Nat) (st : IdentityState)
    (fs : FileSystem) : Except PyErr (IdentityState × FileSystem) :=
  if (fs.lookup (keyPath st)).isSome then
    (load_keypair prim st fs).map (fun st2 => (st2, fs))
  else
    .ok (generate_keypair prim fresh st fs)

/-- Standard base64 alphabet character for a 6-bit value. -/
def b64Char (n : Nat) : Char :=
  if n < 26 then Char.ofNat (65 + n)
  else if n < 52 then Char.ofNat (97 + (n - 26))
  else if n < 62 then Char.ofNat (48 + (n - 52))
  else if n = 62 then '+'
  else '/'

/-- base64.b64encode over a byte sequence, with padding. -/
def b64encode : List Nat → List Char
  | [] => []
  | [a] => [b64Char (a / 4), b64Char (a % 4 * 16), '=', '=']
  | [a, b] => [b64Char (a / 4), b64Char (a % 4 * 16 + b / 16), b64Char (b % 16 * 4), '=']
  | a :: b :: c :: rest =>
      b64Char (a / 4) :: b64Char (a % 4 * 16 + b / 16) ::
        b64Char (b % 16 * 4 + c / 64) :: b64Char (c % 64) :: b64encode rest

/-- Lowercase hex rendering of a byte sequence (hashlib hexdigest). -/
def hexChars : List Nat → List Char
  | [] => []
  | b :: l => hexDigitChar (b / 16 % 16) :: hexDigitChar (b % 16) :: hexChars l

/-- Identity.sign: requires a loaded private key, canonicalizes the
payload, signs the UTF-8 bytes, returns the signature base64-encoded. -/
def Identity.sign (prim : CryptoPrim) (st : IdentityState) (payload : JVal) :
    Except PyErr String :=
  match st.privateKey with
  | none => .error .notInitialized
  | some sk => .ok (String.mk (b64encode (prim.edSign sk (signMessage payload))))

/-- Identity.public_key_base64: requires a loaded public key, returns the
raw public key bytes base64-encoded. -/
def public_key_base64 (prim : CryptoPrim) (st : IdentityState) :
    Except PyErr String :=
  match st.publicKey with
  | none => .error .notInitialized
  | some pk => .ok (String.mk (b64encode (prim.rawPub pk)))

/-- Identity.fingerprint: the code reads `self._public_key.public_bytes`
with no guard, so with no loaded keypair the None value raises
AttributeError; otherwise the first sixteen hex characters of the SHA-256
digest of the raw public key. -/
def fingerprint (prim : CryptoPrim) (st : IdentityState) : Except PyErr String :=
  match st.publicKey with
  | none => .error .attributeError
  | some pk => .ok (String.mk ((hexChars (prim.sha256 (prim.rawPub pk))).take 16))

/-! ## RecoveryKey -/

/-- The fixed recovery key directory, Path.home() / .airc / recovery. -/
def RECOVERY_KEY_DIR : String := "~/.airc/recovery"

/-- In-memory state of `RecoveryKey`. -/
structure RecoveryState where
  name : String
  privateKey : Option Nat
  publicKey : Option Nat

def RecoveryKey.init (name : String) : RecoveryState :=
  { name := name, privateKey := none, publicKey := none }

def recoveryPath (st : RecoveryState) : String :=
  RECOVERY_KEY_DIR ++ "/" ++ st.name ++ ".key"

/-- _generate_recovery_key: make the recovery directory, generate a fresh
keypair, write the private key artifact, set its mode to read-only 0o400. -/
def generate_recovery_key (prim : CryptoPrim) (fresh : Nat) (st : RecoveryState)
    (fs : FileSystem) : RecoveryState × FileSystem :=
  let fs1 := fs.mkdir RECOVERY_KEY_DIR
  let fs2 := (fs1.write (recoveryPath st) (pemEncode fresh)).chmod (recoveryPath st) 0o400
  ({ st with privateKey := some fresh, publicKey := some (prim.derivePub fresh) }, fs2)

/-- _load_recovery_key. -/
def load_recovery_key (prim : CryptoPrim) (st : RecoveryState) (fs : FileSystem) :
    Except PyErr RecoveryState :=
  match fs.lookup (recoveryPath st) with
  | none => .error .notFound
  | some (bytes, _) =>
      match pemDecode bytes with
      | none => .error .corruptKey
      | some sk => .ok { st with privateKey := some sk, publicKey := some (prim.derivePub sk) }

/-- ensure_recovery_key. -/
def ensure_recovery_key (prim : CryptoPrim) (fresh : Nat) (st : RecoveryState)
    (fs : FileSystem) : Except PyErr (RecoveryState × FileSystem) :=
  if (fs.lookup (recoveryPath st)).isSome then
    (load_recovery_key prim st fs).map (fun st2 => (st2, fs))
  else
    .ok (generate_recovery_key prim fresh st fs)

/-- RecoveryKey.sign, same contract as Identity.sign against the recovery
key material. -/
def RecoveryKey.sign (prim : CryptoPrim) (st : RecoveryState) (payload : JVal) :
    Except PyErr String :=
  match st.privateKey with
  | none => .error .notInitialized
  | some sk => .ok (String.mk (b64encode (prim.edSign sk (signMessage payload))))

/-- RecoveryKey.public_key_base64. -/
def recovery_public_key_base64 (prim : CryptoPrim) (st : RecoveryState) :
    Except PyErr String :=
  match st.publicKey with
  | none => .error .notInitialized
  | some pk => .ok (String.mk (b64encode (prim.rawPub pk)))

/-! ## Rotation and revocation proofs

The fresh unix timestamp (int(time.time())) and the fresh random nonce
(secrets.token_hex(16)) are explicit inputs standing for the clock and the
randomness. -/

def JObj.append : JObj → JObj → JObj
  | .nil, o => o
  | .cons k v r, o => .cons k v (JObj.append r o)

def JObj.keys : JObj → List String
  | .nil => []
  | .cons k _ r => k :: JObj.keys r

def JObj.lookup (k : String) : JObj → Option JVal
  | .nil => none
  | .cons k2 v r => if k2 == k then some v else JObj.lookup k r

/-- generate_rotation_proof: build the three-field record, sign it with the
recovery key, then add the signature field to the record. -/
def generate_rotation_proof (prim : CryptoPrim) (st : RecoveryState)
    (new_public_key : String) (timestamp : Int) (nonce : String) :
    Except PyErr JObj :=
  let proof : JObj :=
    .cons "new_public_key" (.str new_public_key)
      (.cons "timestamp" (.int timestamp)
        (.cons "nonce" (.str nonce) .nil))
  match RecoveryKey.sign prim st (.obj proof) with
  | .error e => .error e
  | .ok sig => .ok (proof.append (.cons "signature" (.str sig) .nil))

/-- generate_revocation_proof: build the six-field record (version field
named v in the code), sign it with the recovery key, and return the record
plus the signature under the key proof. -/
def generate_revocation_proof (prim : CryptoPrim) (st : RecoveryState)
    (handle reason : String) (timestamp : Int) (nonce : String) :
    Except PyErr JObj :=
  let payload : JObj :=
    .cons "v" (.str "0.2")
      (.cons "handle" (.str handle)
        (.cons "action" (.str "revoke")
          (.cons "reason" (.str reason)
            (.cons "timestamp" (.int timestamp)
              (.cons "nonce" (.str nonce) .nil)))))
  match RecoveryKey.sign prim st (.obj payload) with
  | .error e => .error e
  | .ok sig => .ok (payload.append (.cons "proof" (.str sig) .nil))

/-! ## Proof-record structure claims -/

/-- Claim C2: for every new-public-key string, generate_rotation_proof
returns a record with exactly the fields new_public_key, timestamp, nonce,
signature, where signature is the recovery key signature (base64) over the
canonical encoding of only the first three fields. -/
theorem rotation_proof_structure (prim : CryptoPrim) (st : RecoveryState)
    (sk : Nat) (npk : String) (ts : Int) (nonce : String)
    (h : st.privateKey = some sk) :
    generate_rotation_proof prim st npk ts nonce =
      .ok (.cons "new_public_key" (.str npk)
        (.cons "timestamp" (.int ts)
          (.cons "nonce" (.str nonce)
            (.cons "signature"
              (.str (String.mk (b64encode (prim.edSign sk (signMessage
                (.obj (.cons "new_public_key" (.str npk)
                  (.cons "timestamp" (.int ts)
                    (.cons "nonce" (.str nonce) .nil))))))))) .nil)))) := by
  simp [generate_rotation_proof, RecoveryKey.sign, h, JObj.append]

/-- Concrete crypto primitives used by the witnesses; the claims hold for
arbitrary primitives, so any instance will do. -/
def prim0 : CryptoPrim :=
  { derivePub := fun sk => sk + 1
    edSign := fun sk msg => sk :: msg.take 2
    rawPub := fun pk => [pk]
    sha256 := fun bs => bs }

/-- A recovery state with a loaded keypair, for the witnesses. -/
def rsOne : RecoveryState :=
  { name := "agent", privateKey := some 7, publicKey := some 8 }

/-- Witness for C2 at a concrete recovery key and inputs. -/
theorem rotation_proof_structure_witness :
    rsOne.privateKey = some 7 ∧
    generate_rotation_proof prim0 rsOne "ed25519:AAAA" 5 "ab" =
      .ok (.cons "new_public_key" (.str "ed25519:AAAA")
        (.cons "timestamp" (.int 5)
          (.cons "nonce" (.str "ab")
            (.cons "signature"
              (.str (String.mk (b64encode (prim0.edSign 7 (signMessage
                (.obj (.cons "new_public_key" (.str "ed25519:AAAA")
                  (.cons "timestamp" (.int 5)
                    (.cons "nonce" (.str "ab") .nil))))))))) .nil)))) :=
  ⟨rfl, rotation_proof_structure prim0 rsOne 7 "ed25519:AAAA" 5 "ab" rfl⟩

/-- Counterexample for C3 as stated: at a concrete input the returned
revocation record has no field named version; its version field is named
v, as the key list shows, so the record cannot contain the seven fields
the claim names. -/
theorem revocation_proof_no_version_field :
    (generate_revocation_proof prim0 rsOne "alice" "compromised" 0 "00").map
      (fun r => ((JObj.lookup "version" r).isSome, JObj.keys r)) =
    .ok (false, ["v", "handle", "action", "reason", "timestamp", "nonce", "proof"]) := rfl

/-- Claim C3 as amended: the version field of the revocation record is
named v.  For every handle and reason, generate_revocation_proof returns a
record with fields v (holding 0.2), handle, action (holding revoke),
reason, timestamp, nonce and proof, where proof is the recovery key
signature (base64) over the canonical encoding of the six preceding
fields, and those six fields appear unchanged in the returned record. -/
theorem revocation_proof_structure (prim : CryptoPrim) (st : RecoveryState)
    (sk : Nat) (handle reason : String) (ts : Int) (nonce : String)
    (h : st.privateKey = some sk) :
    generate_revocation_proof prim st handle reason ts nonce =
      .ok (.cons "v" (.str "0.2")
        (.cons "handle" (.str handle)
          (.cons "action" (.str "revoke")
            (.cons "reason" (.str reason)
              (.cons "timestamp" (.int ts)
                (.cons "nonce" (.str nonce)
                  (.cons "proof"
                    (.str (String.mk (b64encode (prim.edSign sk (signMessage
                      (.obj (.cons "v" (.str "0.2")
                        (.cons "handle" (.str handle)
                          (.cons "action" (.str "revoke")
                            (.cons "reason" (.str reason)
                              (.cons "timestamp" (.int ts)
                                (.cons "nonce" (.str nonce) .nil)))))))))))) .nil))))))) := by
  simp [generate_revocation_proof, RecoveryKey.sign, h, JObj.append]

/-- Witness for C3 as amended, at a concrete recovery key and inputs. -/
theorem revocation_proof_structure_witness :
    rsOne.privateKey = some 7 ∧
    generate_revocation_proof prim0 rsOne "alice" "compromised" 0 "00" =
      .ok (.cons "v" (.str "0.2")
        (.cons "handle" (.str "alice")
          (.cons "action" (.str "revoke")
            (.cons "reason" (.str "compromised")
              (.cons "timestamp" (.int 0)
                (.cons "nonce" (.str "00")
                  (.cons "proof"
                    (.str (String.mk (b64encode (prim0.edSign 7 (signMessage
                      (.obj (.cons "v" (.str "0.2")
                        (.cons "handle" (.str "alice")
                          (.cons "action" (.str "revoke")
                            (.cons "reason" (.str "compromised")
                              (.cons "timestamp" (.int 0)
                                (.cons "nonce" (.str "00") .nil)))))))))))) .nil))))))) :=
  ⟨rfl, revocation_proof_structure prim0 rsOne 7 "alice" "compromised" 0 "00" rfl⟩

/-! ## Uninitialized use and the keypair lifecycle -/

/-- Claim C5 (the code diverges from it): fingerprint on an Identity whose
keypair has not been loaded reads public_bytes from the None public key,
so it fails with AttributeError, a crash, not with the NotInitialized
error the sibling operations raise. -/
theorem fingerprint_uninitialized_crashes (prim : CryptoPrim) (name dir : String) :
    fingerprint prim (Identity.init name dir) = .error .attributeError ∧
    fingerprint prim (Identity.init name dir) ≠ .error .notInitialized := by
  exact ⟨rfl, by simp [fingerprint, Identity.init]⟩

/-- Claim C7: sign and public_key_base64 on an uninitialized Identity or
RecoveryKey fail with the NotInitialized error; with a loaded keypair
neither raises it. -/
theorem sign_requires_loaded_keypair (prim : CryptoPrim) (name dir : String)
    (payload : JVal) (st : IdentityState) (rst : RecoveryState)
    (sk pk rsk rpk : Nat)
    (h1 : st.privateKey = some sk) (h2 : st.publicKey = some pk)
    (h3 : rst.privateKey = some rsk) (h4 : rst.publicKey = some rpk) :
    Identity.sign prim (Identity.init name dir) payload = .error .notInitialized ∧
    public_key_base64 prim (Identity.init name dir) = .error .notInitialized ∧
    RecoveryKey.sign prim (RecoveryKey.init name) payload = .error .notInitialized ∧
    recovery_public_key_base64 prim (RecoveryKey.init name) = .error .notInitialized ∧
    (Identity.sign prim st payload).isOk = true ∧
    (public_key_base64 prim st).isOk = true ∧
    (RecoveryKey.sign prim rst payload).isOk = true ∧
    (recovery_public_key_base64 prim rst).isOk = true := by
  refine ⟨rfl, rfl, rfl, rfl, ?_, ?_, ?_, ?_⟩ <;>
    simp [Identity.sign, public_key_base64, RecoveryKey.sign,
      recovery_public_key_base64, h1, h2, h3, h4, Except.isOk, Except.toBool]

/-- An identity state with a loaded keypair, for the witnesses. -/
def stOne : IdentityState :=
  { name := "agent", keyDir := "keys", privateKey := some 7, publicKey := some 8 }

/-- Witness for C7 at concrete states. -/
theorem sign_requires_loaded_keypair_witness :
    stOne.privateKey = some 7 ∧ stOne.publicKey = some 8 ∧
    rsOne.privateKey = some 7 ∧ rsOne.publicKey = some 8 ∧
    Identity.sign prim0 (Identity.init "agent" "keys") (.int 1) = .error .notInitialized ∧
    (Identity.sign prim0 stOne (.int 1)).isOk = true :=
  ⟨rfl, rfl, rfl, rfl,
    (sign_requires_loaded_keypair prim0 "agent" "keys" (.int 1) stOne rsOne
      7 8 7 8 rfl rfl rfl rfl).1,
    (sign_requires_loaded_keypair prim0 "agent" "keys" (.int 1) stOne rsOne
      7 8 7 8 rfl rfl rfl rfl).2.2.2.2.1⟩

theorem append_key_ne_pub (p : String) : p ++ ".key" ≠ p ++ ".pub" := by
  intro h
  have hd : p.data ++ ".key".data = p.data ++ ".pub".data := congrArg String.data h
  have := List.append_cancel_left hd
  simp at this

theorem keyPath_ne_publicKeyPath (st : IdentityState) :
    keyPath st ≠ publicKeyPath st := append_key_ne_pub (st.keyDir ++ "/" ++ st.name)

/-- After _generate_keypair the private-key artifact holds the serialized
fresh key with mode 0o600, whatever the starting file system. -/
theorem generate_keypair_artifact (prim : CryptoPrim) (fresh : Nat)
    (st : IdentityState) (fs : FileSystem) :
    ((generate_keypair prim fresh st fs).2).lookup (keyPath st) =
      some (pemEncode fresh, 0o600) := by
  have hne := keyPath_ne_publicKeyPath st
  simp only [generate_keypair, FileSystem.lookup, FileSystem.write,
    FileSystem.chmod, FileSystem.mkdir]
  rw [if_neg hne]
  cases fs.files (keyPath st) <;> simp

/-- After _generate_recovery_key the recovery artifact holds the
serialized fresh key with mode 0o400. -/
theorem generate_recovery_key_artifact (prim : CryptoPrim) (fresh : Nat)
    (st : RecoveryState) (fs : FileSystem) :
    ((generate_recovery_key prim fresh st fs).2).lookup (recoveryPath st) =
      some (pemEncode fresh, 0o400) := by
  simp only [generate_recovery_key, FileSystem.lookup, FileSystem.write,
    FileSystem.chmod, FileSystem.mkdir]
  cases fs.files (recoveryPath st) <;> simp

/-- Claim C8: a generate leaves the signing private-key artifact with mode
0o600 and the recovery private-key artifact with mode 0o400, and creates
the parent directory. -/
theorem private_key_artifact_modes (prim : CryptoPrim) (fresh : Nat)
    (st : IdentityState) (rst : RecoveryState) (fs rfs : FileSystem) :
    ((generate_keypair prim fresh st fs).2).lookup (keyPath st) =
      some (pemEncode fresh, 0o600) ∧
    st.keyDir ∈ ((generate_keypair prim fresh st fs).2).dirs ∧
    ((generate_recovery_key prim fresh rst rfs).2).lookup (recoveryPath rst) =
      some (pemEncode fresh, 0o400) ∧
    RECOVERY_KEY_DIR ∈ ((generate_recovery_key prim fresh rst rfs).2).dirs := by
  refine ⟨generate_keypair_artifact prim fresh st fs, ?_,
    generate_recovery_key_artifact prim fresh rst rfs, ?_⟩ <;>
    simp [generate_keypair, generate_recovery_key, FileSystem.write,
      FileSystem.chmod, FileSystem.mkdir]

/-- Claim C6: on a fresh name the first ensure_keypair generates and
persists a keypair; the second call sees the artifact (the load-branch
condition holds), loads instead of regenerating (the result does not
depend on the second fresh key), and leaves state and file system exactly
as the first call did, so both calls hold the same public key. -/
theorem ensure_keypair_idempotent (prim : CryptoPrim) (fresh fresh2 : Nat)
    (st : IdentityState) (fs : FileSystem)
    (h : fs.lookup (keyPath st) = none) :
    ensure_keypair prim fresh st fs = .ok (generate_keypair prim fresh st fs) ∧
    (generate_keypair prim fresh st fs).1.publicKey = some (prim.derivePub fresh) ∧
    (((generate_keypair prim fresh st fs).2).lookup
      (keyPath (generate_keypair prim fresh st fs).1)).isSome = true ∧
    ensure_keypair prim fresh2 (generate_keypair prim fresh st fs).1
      (generate_keypair prim fresh st fs).2 =
      .ok (generate_keypair prim fresh st fs) := by
  have hpath : keyPath (generate_keypair prim fresh st fs).1 = keyPath st := rfl
  have hart : ((generate_keypair prim fresh st fs).2).lookup
      (keyPath (generate_keypair prim fresh st fs).1) =
      some (pemEncode fresh, 0o600) := by
    rw [hpath]; exact generate_keypair_artifact prim fresh st fs
  refine ⟨?_, rfl, ?_, ?_⟩
  · simp [ensure_keypair, h]
  · simp [hart]
  · simp [ensure_keypair, hart, load_keypair, pemDecode, Except.map]
    rfl

/-- The empty file system, for the witnesses. -/
def fs0 : FileSystem := { files := fun _ => none, dirs := [] }

/-- Witness for C6 on a fresh name over the empty file system. -/
theorem ensure_keypair_idempotent_witness :
    fs0.lookup (keyPath (Identity.init "agent" "keys")) = none ∧
    ensure_keypair prim0 7 (Identity.init "agent" "keys") fs0 =
      .ok (generate_keypair prim0 7 (Identity.init "agent" "keys") fs0) ∧
    (generate_keypair prim0 7 (Identity.init "agent" "keys") fs0).1.publicKey = some 8 ∧
    ensure_keypair prim0 9 (generate_keypair prim0 7 (Identity.init "agent" "keys") fs0).1
      (generate_keypair prim0 7 (Identity.init "agent" "keys") fs0).2 =
      .ok (generate_keypair prim0 7 (Identity.init "agent" "keys") fs0) :=
  have hmain := ensure_keypair_idempotent prim0 7 9 (Identity.init "agent" "keys") fs0 rfl
  ⟨rfl, hmain.1, hmain.2.1, hmain.2.2.2⟩

/-- The invariant of claim C9 for Identity: private and public key are
both unset or both set, and a set public key is the one derived from the
private key. -/
def goodIdentity (prim : CryptoPrim) (st : IdentityState) : Prop :=
  (st.privateKey = none ∧ st.publicKey = none) ∨
  ∃ sk, st.privateKey = some sk ∧ st.publicKey = some (prim.derivePub sk)

/-- The invariant of claim C9 for RecoveryKey. -/
def goodRecovery (prim : CryptoPrim) (st : RecoveryState) : Prop :=
  (st.privateKey = none ∧ st.publicKey = none) ∨
  ∃ sk, st.privateKey = some sk ∧ st.publicKey = some (prim.derivePub sk)

/-- Claim C9: construction, fresh or forced generate, reload from disk and
ensure all leave an Identity or RecoveryKey state satisfying the
keypair invariant, from any starting state. -/
theorem keypair_invariant (prim : CryptoPrim) (name dir : String) (fresh : Nat)
    (st : IdentityState) (rst : RecoveryState) (fs : FileSystem) :
    goodIdentity prim (Identity.init name dir) ∧
    goodIdentity prim (generate_keypair prim fresh st fs).1 ∧
    (∀ st2, load_keypair prim st fs = .ok st2 → goodIdentity prim st2) ∧
    (∀ st2 fs2, ensure_keypair prim fresh st fs = .ok (st2, fs2) →
      goodIdentity prim st2) ∧
    goodRecovery prim (RecoveryKey.init name) ∧
    goodRecovery prim (generate_recovery_key prim fresh rst fs).1 ∧
    (∀ st2, load_recovery_key prim rst fs = .ok st2 → goodRecovery prim st2) ∧
    (∀ st2 fs2, ensure_recovery_key prim fresh rst fs = .ok (st2, fs2) →
      goodRecovery prim st2) := by
  have hload : ∀ st2, load_keypair prim st fs = .ok st2 → goodIdentity prim st2 := by
    intro st2 h2
    unfold load_keypair at h2
    split at h2
    · cases h2
    · split at h2
      · cases h2
      · cases h2
        exact Or.inr ⟨_, rfl, rfl⟩
  have hrload : ∀ st2, load_recovery_key prim rst fs = .ok st2 →
      goodRecovery prim st2 := by
    intro st2 h2
    unfold load_recovery_key at h2
    split at h2
    · cases h2
    · split at h2
      · cases h2
      · cases h2
        exact Or.inr ⟨_, rfl, rfl⟩
  refine ⟨Or.inl ⟨rfl, rfl⟩, Or.inr ⟨fresh, rfl, rfl⟩, hload, ?_,
    Or.inl ⟨rfl, rfl⟩, Or.inr ⟨fresh, rfl, rfl⟩, hrload, ?_⟩
  · intro st2 fs2 h2
    unfold ensure_keypair at h2
    split at h2
    · cases hl : load_keypair prim st fs with
      | error e => rw [hl] at h2; cases h2
      | ok stL =>
          rw [hl] at h2
          simp only [Except.map, Except.ok.injEq, Prod.mk.injEq] at h2
          obtain ⟨hst, _⟩ := h2
          exact hst ▸ hload stL hl
    · cases h2
      exact Or.inr ⟨fresh, rfl, rfl⟩
  · intro st2 fs2 h2
    unfold ensure_recovery_key at h2
    split at h2
    · cases hl : load_recovery_key prim rst fs with
      | error e => rw [hl] at h2; cases h2
      | ok stL =>
          rw [hl] at h2
          simp only [Except.map, Except.ok.injEq, Prod.mk.injEq] at h2
          obtain ⟨hst, _⟩ := h2
          exact hst ▸ hrload stL hl
    · cases h2
      exact Or.inr ⟨fresh, rfl, rfl⟩

/-- The file system after one generate, for the witnesses. -/
def fsOne : FileSystem := (generate_keypair prim0 7 (Identity.init "agent" "keys") fs0).2

/-- Witness for C9: a reload from disk after a generate satisfies the
invariant. -/
theorem keypair_invariant_witness :
    load_keypair prim0 (Identity.init "agent" "keys") fsOne =
      .ok { name := "agent", keyDir := "keys", privateKey := some 7, publicKey := some 8 } ∧
    goodIdentity prim0
      { name := "agent", keyDir := "keys", privateKey := some 7, publicKey := some 8 } :=
  ⟨rfl,
    (keypair_invariant prim0 "agent" "keys" 7 (Identity.init "agent" "keys")
      (RecoveryKey.init "agent") fsOne).2.2.1 _ rfl⟩

/-! ## The signed bytes are pure ASCII -/

theorem digitChar_ascii : ∀ n, 32 ≤ (digitChar n).toNat ∧ (digitChar n).toNat ≤ 126
  | 0 => by decide
  | 1 => by decide
  | 2 => by decide
  | 3 => by decide
  | 4 => by decide
  | 5 => by decide
  | 6 => by decide
  | 7 => by decide
  | 8 => by decide
  | 9 => by decide
  | _ + 10 => by
      exact (by decide : 32 ≤ Char.toNat '0' ∧ Char.toNat '0' ≤ 126)

theorem hexDigitChar_ascii : ∀ n, 32 ≤ (hexDigitChar n).toNat ∧ (hexDigitChar n).toNat ≤ 126
  | 0 => by decide
  | 1 => by decide
  | 2 => by decide
  | 3 => by decide
  | 4 => by decide
  | 5 => by decide
  | 6 => by decide
  | 7 => by decide
  | 8 => by decide
  | 9 => by decide
  | 10 => by decide
  | 11 => by decide
  | 12 => by decide
  | 13 => by decide
  | 14 => by decide
  | 15 => by decide
  | _ + 16 => by
      exact (by decide : 32 ≤ Char.toNat '0' ∧ Char.toNat '0' ≤ 126)

theorem hex4_ascii (n : Nat) : ∀ c ∈ hex4 n, c.toNat < 128 := by
  intro c hc
  simp only [hex4, List.mem_cons, List.not_mem_nil, or_false] at hc
  rcases hc with h | h | h | h <;> subst h <;>
    exact Nat.lt_of_le_of_lt (hexDigitChar_ascii _).2 (by decide)

theorem bslash_u_hex4_ascii (n : Nat) : ∀ c ∈ bslash :: 'u' :: hex4 n, c.toNat < 128 := by
  intro c hc
  simp only [List.mem_cons] at hc
  rcases hc with h | h | h
  · subst h; decide
  · subst h; decide
  · exact hex4_ascii n c h

theorem escapeChar_ascii (ch : Char) : ∀ c ∈ escapeChar ch, c.toNat < 128 := by
  intro c hc
  unfold escapeChar at hc
  repeat' split at hc
  case isTrue =>
    simp only [List.mem_cons, List.not_mem_nil, or_false] at hc
    rcases hc with h | h <;> subst h <;> decide
  case isTrue =>
    simp only [List.mem_cons, List.not_mem_nil, or_false] at hc
    rcases hc with h | h <;> subst h <;> decide
  case isTrue =>
    simp only [List.mem_cons, List.not_mem_nil, or_false] at hc
    rcases hc with h | h <;> subst h <;> decide
  case isTrue =>
    simp only [List.mem_cons, List.not_mem_nil, or_false] at hc
    rcases hc with h | h <;> subst h <;> decide
  case isTrue =>
    simp only [List.mem_cons, List.not_mem_nil, or_false] at hc
    rcases hc with h | h <;> subst h <;> decide
  case isTrue =>
    simp only [List.mem_cons, List.not_mem_nil, or_false] at hc
    rcases hc with h | h <;> subst h <;> decide
  case isTrue =>
    simp only [List.mem_cons, List.not_mem_nil, or_false] at hc
    rcases hc with h | h <;> subst h <;> decide
  case isTrue h =>
    simp only [List.mem_cons, List.not_mem_nil, or_false] at hc
    subst hc
    omega
  case isTrue =>
    exact bslash_u_hex4_ascii _ c hc
  case isFalse =>
    simp only [List.cons_append, List.mem_cons, List.mem_append] at hc
    rcases hc with h | h | h | h | h | h
    · subst h; decide
    · subst h; decide
    · exact hex4_ascii _ c h
    · subst h; decide
    · subst h; decide
    · exact hex4_ascii _ c h

theorem quoteChars_ascii (s : String) : ∀ c ∈ quoteChars s, c.toNat < 128 := by
  intro c hc
  simp only [quoteChars, List.mem_cons, List.mem_append, List.mem_flatMap,
    List.mem_singleton] at hc
  rcases hc with (h | ⟨x, _, hx⟩) | (h | h)
  · subst h; decide
  · exact escapeChar_ascii x c hx
  · subst h; decide
  · simp at h

theorem natCharsAux_ascii : ∀ fuel n, ∀ c ∈ natCharsAux fuel n, c.toNat < 128
  | 0, n => by intro c hc; simp [natCharsAux] at hc
  | fuel + 1, n => by
      intro c hc
      unfold natCharsAux at hc
      split at hc
      · simp only [List.mem_singleton] at hc
        subst hc
        have := digitChar_ascii n
        omega
      · simp only [List.mem_append, List.mem_singleton] at hc
        rcases hc with h | h
        · exact natCharsAux_ascii fuel (n / 10) c h
        · subst h
          have := digitChar_ascii (n % 10)
          omega

theorem intChars_ascii : ∀ n : Int, ∀ c ∈ intChars n, c.toNat < 128
  | .ofNat n => by
      intro c hc
      exact natCharsAux_ascii _ _ c hc
  | .negSucc m => by
      intro c hc
      rcases List.mem_cons.mp hc with h | h
      · subst h; decide
      · exact natCharsAux_ascii _ _ c h

theorem joinComma_mem : ∀ (L : List (List Char)) (c : Char), c ∈ joinComma L →
    c = ',' ∨ ∃ x ∈ L, c ∈ x
  | [], c => by intro hc; simp [joinComma] at hc
  | [x], c => by intro hc; exact Or.inr ⟨x, by simp, hc⟩
  | x :: y :: l, c => by
      intro hc
      simp only [joinComma, List.mem_append, List.mem_cons] at hc
      rcases hc with h | h | h
      · exact Or.inr ⟨x, by simp, h⟩
      · exact Or.inl h
      · rcases joinComma_mem (y :: l) c h with h' | ⟨z, hz, hcz⟩
        · exact Or.inl h'
        · exact Or.inr ⟨z, List.mem_cons_of_mem x hz, hcz⟩

theorem insEntry_subset (x : Entry) : ∀ l e, e ∈ insEntry x l → e = x ∨ e ∈ l
  | [], e => by
      intro h
      simp only [insEntry, List.mem_singleton] at h
      exact Or.inl h
  | y :: l, e => by
      intro h
      unfold insEntry at h
      split at h
      · rcases List.mem_cons.mp h with h' | h'
        · exact Or.inr (by simp [h'])
        · rcases insEntry_subset x l e h' with h'' | h''
          · exact Or.inl h''
          · exact Or.inr (List.mem_cons_of_mem y h'')
      · rcases List.mem_cons.mp h with h' | h'
        · exact Or.inl h'
        · exact Or.inr h'

theorem sortEntries_subset : ∀ l e, e ∈ sortEntries l → e ∈ l
  | [], e => by intro h; simp [sortEntries] at h
  | x :: l, e => by
      intro h
      unfold sortEntries at h
      rcases insEntry_subset x (sortEntries l) e h with h' | h'
      · simp [h']
      · exact List.mem_cons_of_mem x (sortEntries_subset l e h')

mutual
theorem encodeVal_ascii : ∀ p : JVal, ∀ c ∈ encodeVal p, c.toNat < 128
  | .str s => quoteChars_ascii s
  | .int n => intChars_ascii n
  | .obj o => by
      intro c hc
      unfold encodeVal at hc
      simp only [List.mem_cons, List.mem_append, List.mem_singleton] at hc
      rcases hc with (h | h) | (h | h)
      · subst h; decide
      · rcases joinComma_mem _ c h with h' | ⟨x, hx, hcx⟩
        · subst h'; decide
        · rcases List.mem_map.mp hx with ⟨e, he, hex⟩
          have he' := sortEntries_subset _ e he
          subst hex
          simp only [entryChars, List.mem_append, List.mem_cons] at hcx
          rcases hcx with h'' | h'' | h''
          · exact quoteChars_ascii e.1 c h''
          · subst h''; decide
          · exact encodeEntries_ascii o e he' c h''
      · subst h; decide
      · simp at h

theorem encodeEntries_ascii : ∀ o : JObj, ∀ e ∈ encodeEntries o, ∀ c ∈ e.2, c.toNat < 128
  | .nil => by intro e he; simp [encodeEntries] at he
  | .cons k v r => by
      intro e he c hc
      unfold encodeEntries at he
      rcases List.mem_cons.mp he with h | h
      · subst h
        exact encodeVal_ascii v c hc
      · exact encodeEntries_ascii r e h c hc
end

theorem flatMap_utf8_ascii : ∀ l : List Char, (∀ c ∈ l, c.toNat < 128) →
    l.flatMap utf8Char = l.map Char.toNat
  | [] => by intro _; rfl
  | c :: l => by
      intro h
      have hc : c.toNat < 128 := h c (by simp)
      rw [List.flatMap_cons, List.map_cons,
        flatMap_utf8_ascii l (fun x hx => h x (List.mem_cons_of_mem c hx))]
      unfold utf8Char
      rw [if_pos hc]
      rfl

/-- Claim C10: the canonical byte sequence that gets signed is pure ASCII,
one byte per character of the canonical text; non-ASCII characters have
been escaped, so the signed bytes never contain a byte at or above 0x80
even when the payload does. -/
theorem canonical_encoding_pure_ascii (p : JVal) :
    ((signMessage p).all (fun b => decide (b < 128))) = true ∧
    signMessage p = (encodeVal p).map Char.toNat := by
  have hm := flatMap_utf8_ascii (encodeVal p) (encodeVal_ascii p)
  refine ⟨?_, hm⟩
  rw [signMessage, hm, List.all_eq_true]
  intro b hb
  rcases List.mem_map.mp hb with ⟨c, hc, hcb⟩
  subst hcb
  exact decide_eq_true (encodeVal_ascii p c hc)

/-! ## The encoder on the full dynamic payload domain

The Python code passes arbitrary dict values into json.dumps.  Beyond the
allowed domain, json.dumps serializes booleans, floats, None and lists
natively; it raises TypeError only for objects it cannot serialize at
all, such as bytes, modeled by the unsupported constructor. -/

mutual
/-- A dynamic payload value.  A float value carries the text that the
runtime repr produces for it (the shortest round-tripping decimal for a
finite double, or NaN, Infinity, -Infinity for the special values);
json.dumps emits exactly that text for a float and never raises on one,
which is the behavior the claims concern, while the shortest-repr
algorithm itself lives in the C runtime outside this repository. -/
inductive PyVal where
  | str (s : String)
  | int (n : Int)
  | boolV (b : Bool)
  | floatV (r : List Char)
  | noneV
  | list (xs : PyList)
  | obj (o : PyObj)
  | unsupported

inductive PyList where
  | nil
  | cons (v : PyVal) (rest : PyList)

inductive PyObj where
  | nil
  | cons (k : String) (v : PyVal) (rest : PyObj)
end

mutual
/-- json.dumps(payload, sort_keys=True, separators=(",", ":")) on the full
dynamic domain: succeeds on str, int, bool, None, list and dict values,
raises TypeError on unserializable objects. -/
def dumpsVal : PyVal → Except PyErr (List Char)
  | .str s => .ok (quoteChars s)
  | .int n => .ok (intChars n)
  | .boolV b => .ok (if b then ['t', 'r', 'u', 'e'] else ['f', 'a', 'l', 's', 'e'])
  | .floatV r => .ok r
  | .noneV => .ok ['n', 'u', 'l', 'l']
  | .list xs =>
      match dumpsList xs with
      | .error e => .error e
      | .ok parts => .ok ('[' :: joinComma parts ++ [']'])
  | .obj o =>
      match dumpsEntries o with
      | .error e => .error e
      | .ok entries =>
          .ok (lbrace :: joinComma ((sortEntries entries).map entryChars) ++ [rbrace])
  | .unsupported => .error .typeError

def dumpsList : PyList → Except PyErr (List (List Char))
  | .nil => .ok []
  | .cons v r =>
      match dumpsVal v with
      | .error e => .error e
      | .ok cv =>
          match dumpsList r with
          | .error e => .error e
          | .ok rest => .ok (cv :: rest)

def dumpsEntries : PyObj → Except PyErr (List Entry)
  | .nil => .ok []
  | .cons k v r =>
      match dumpsVal v with
      | .error e => .error e
      | .ok cv =>
          match dumpsEntries r with
          | .error e => .error e
          | .ok rest => .ok ((k, cv) :: rest)
end

/-- Identity.sign on the full dynamic payload domain: the canonical
encoding step runs inside it and any TypeError propagates. -/
def Identity.signPy (prim : CryptoPrim) (st : IdentityState) (payload : PyVal) :
    Except PyErr String :=
  match st.privateKey with
  | none => .error .notInitialized
  | some sk =>
      match dumpsVal payload with
      | .error e => .error e
      | .ok chars => .ok (String.mk (b64encode (prim.edSign sk (chars.flatMap utf8Char))))

mutual
/-- True when the payload contains no value json.dumps cannot serialize. -/
def jsonable : PyVal → Bool
  | .str _ => true
  | .int _ => true
  | .boolV _ => true
  | .floatV _ => true
  | .noneV => true
  | .list xs => jsonableList xs
  | .obj o => jsonableObj o
  | .unsupported => false

def jsonableList : PyList → Bool
  | .nil => true
  | .cons v r => jsonable v && jsonableList r

def jsonableObj : PyObj → Bool
  | .nil => true
  | .cons _ v r => jsonable v && jsonableObj r
end

mutual
theorem dumpsVal_ok : ∀ v, jsonable v = true → (dumpsVal v).isOk = true
  | .str _, _ => rfl
  | .int _, _ => rfl
  | .boolV b, _ => by cases b <;> rfl
  | .floatV _, _ => rfl
  | .noneV, _ => rfl
  | .list xs, h => by
      have hl := dumpsList_ok xs (by simpa [jsonable] using h)
      unfold dumpsVal
      cases hx : dumpsList xs with
      | error e => rw [hx] at hl; simp [Except.isOk, Except.toBool] at hl
      | ok parts => simp [Except.isOk, Except.toBool]
  | .obj o, h => by
      have hl := dumpsEntries_ok o (by simpa [jsonable] using h)
      unfold dumpsVal
      cases hx : dumpsEntries o with
      | error e => rw [hx] at hl; simp [Except.isOk, Except.toBool] at hl
      | ok entries => simp [Except.isOk, Except.toBool]
  | .unsupported, h => by simp [jsonable] at h

theorem dumpsList_ok : ∀ xs, jsonableList xs = true → (dumpsList xs).isOk = true
  | .nil, _ => rfl
  | .cons v r, h => by
      rw [jsonableList, Bool.and_eq_true] at h
      have hv := dumpsVal_ok v h.1
      have hr := dumpsList_ok r h.2
      unfold dumpsList
      cases hv' : dumpsVal v with
      | error e => rw [hv'] at hv; simp [Except.isOk, Except.toBool] at hv
      | ok cv =>
          cases hr' : dumpsList r with
          | error e => rw [hr'] at hr; simp [Except.isOk, Except.toBool] at hr
          | ok rest => simp [Except.isOk, Except.toBool]

theorem dumpsEntries_ok : ∀ o, jsonableObj o = true → (dumpsEntries o).isOk = true
  | .nil, _ => rfl
  | .cons k v r, h => by
      rw [jsonableObj, Bool.and_eq_true] at h
      have hv := dumpsVal_ok v h.1
      have hr := dumpsEntries_ok r h.2
      unfold dumpsEntries
      cases hv' : dumpsVal v with
      | error e => rw [hv'] at hv; simp [Except.isOk, Except.toBool] at hv
      | ok cv =>
          cases hr' : dumpsEntries r with
          | error e => rw [hr'] at hr; simp [Except.isOk, Except.toBool] at hr
          | ok rest => simp [Except.isOk, Except.toBool]
end

/-- Counterexample for C4 as stated: a payload whose value is a boolean
is not rejected.  The canonical encoding step succeeds on the mapping
a:True, producing the JSON text with byte values 123 34 97 34 58 116 114
117 101 125, and sign silently produces a signature from it. -/
theorem encoder_accepts_bool :
    (dumpsVal (.obj (.cons "a" (.boolV true) .nil))).map (fun l => l.map Char.toNat) =
      .ok [123, 34, 97, 34, 58, 116, 114, 117, 101, 125] ∧
    (Identity.signPy prim0 stOne (.obj (.cons "a" (.boolV true) .nil))).isOk = true :=
  ⟨rfl, rfl⟩

/-- Claim C4 as amended: the canonical encoding step does not reject
booleans, floats, None or lists; it silently serializes every payload
free of unserializable objects, and sign then produces a signature.  An
encoding error (TypeError) is signaled only when the payload contains a
value json.dumps cannot serialize at all. -/
theorem encoder_silently_serializes (prim : CryptoPrim) (st : IdentityState)
    (sk : Nat) (v : PyVal) (h1 : st.privateKey = some sk)
    (h2 : jsonable v = true) :
    (dumpsVal v).isOk = true ∧
    (Identity.signPy prim st v).isOk = true ∧
    dumpsVal PyVal.unsupported = .error .typeError := by
  have hd := dumpsVal_ok v h2
  refine ⟨hd, ?_, rfl⟩
  unfold Identity.signPy
  rw [h1]
  cases hv : dumpsVal v with
  | error e => rw [hv] at hd; simp [Except.isOk, Except.toBool] at hd
  | ok chars => simp [Except.isOk, Except.toBool]

/-- Witness for the amended C4 at a payload holding a boolean, a float,
None and a list. -/
theorem encoder_silently_serializes_witness :
    stOne.privateKey = some 7 ∧
    jsonable (.obj (.cons "b" (.boolV false) (.cons "f" (.floatV ['1', '.', '5'])
      (.cons "n" .noneV (.cons "l" (.list (.cons (.int 1) .nil)) .nil))))) = true ∧
    (dumpsVal (.obj (.cons "b" (.boolV false) (.cons "f" (.floatV ['1', '.', '5'])
      (.cons "n" .noneV (.cons "l" (.list (.cons (.int 1) .nil)) .nil)))))).isOk = true :=
  ⟨rfl, rfl,
    (encoder_silently_serializes prim0 stOne 7
      (.obj (.cons "b" (.boolV false) (.cons "f" (.floatV ['1', '.', '5'])
        (.cons "n" .noneV (.cons "l" (.list (.cons (.int 1) .nil)) .nil))))) rfl rfl).1⟩
